import Mathlib

/-!
Verification of the CSV analyzer (web surface `src/app.py`, CLI surface
`src/analyze_csv.py`) against its natural-language specification.

The repository's own code (decoding fallback, sniffer wrapper, the
statistics formulas, `human_bytes`, and the shape of the two ingestion
pipelines) is embedded directly from the Python source.  The pipeline also
calls two external libraries whose code is not part of the repository:

* `csv.Sniffer().sniff(sample, delimiters=[...])` — modelled as an
  abstract total function into `Except`, since the wrapper catches every
  exception; the library guarantee that a successful sniff returns one of
  the delimiters passed in the `delimiters` argument is taken as an
  explicit hypothesis where needed.
* `pandas.read_csv(..., sep=None, engine="python")` and the dataframe
  statistics (`duplicated`, `isna`, `memory_usage(deep=True)`) — modelled
  from the specification's own contract for the Table Parser and Profiler
  (spec sections 4.3 and 4.4), because the deciding code is not in the
  repository sources.  Every such definition carries a doc comment
  starting with "Modelled from the spec:".

Python text is a sequence of Unicode code points, embedded as `List Char`;
raw bytes are embedded as `List Nat` (each intended below 256).
-/

/-- Continuation-byte lower bound for a 3-byte UTF-8 leader: `0xE0` forces
`0xA0` (overlong rejection), every other leader allows `0x80`. -/
def contLB3 (b0 : Nat) : Nat := if b0 = 0xE0 then 0xA0 else 0x80

/-- Continuation-byte upper bound for a 3-byte UTF-8 leader: `0xED` caps at
`0x9F` (surrogate rejection), every other leader allows `0xBF`. -/
def contUB3 (b0 : Nat) : Nat := if b0 = 0xED then 0x9F else 0xBF

/-- Continuation-byte lower bound for a 4-byte UTF-8 leader: `0xF0` forces
`0x90` (overlong rejection). -/
def contLB4 (b0 : Nat) : Nat := if b0 = 0xF0 then 0x90 else 0x80

/-- Continuation-byte upper bound for a 4-byte UTF-8 leader: `0xF4` caps at
`0x8F` (no code point above `U+10FFFF`). -/
def contUB4 (b0 : Nat) : Nat := if b0 = 0xF4 then 0x8F else 0xBF

/-- Strict UTF-8 decoding of a byte sequence, `none` on the first invalid
sequence.  This is the semantics of Python's `data_bytes.decode("utf-8")`
(`src/app.py:81`, `src/analyze_csv.py:27`): RFC 3629 UTF-8, rejecting
overlong encodings, surrogates and code points above `U+10FFFF`. -/
def utf8Decode? : List Nat → Option (List Char)
  | [] => some []
  | b0 :: bs =>
    if b0 < 0x80 then
      (utf8Decode? bs).map (fun cs => Char.ofNat b0 :: cs)
    else if 0xC2 ≤ b0 ∧ b0 ≤ 0xDF then
      match bs with
      | b1 :: bs1 =>
        if 0x80 ≤ b1 ∧ b1 ≤ 0xBF then
          (utf8Decode? bs1).map
            (fun cs => Char.ofNat ((b0 - 0xC0) * 0x40 + (b1 - 0x80)) :: cs)
        else none
      | [] => none
    else if 0xE0 ≤ b0 ∧ b0 ≤ 0xEF then
      match bs with
      | b1 :: b2 :: bs2 =>
        if (contLB3 b0 ≤ b1 ∧ b1 ≤ contUB3 b0) ∧ (0x80 ≤ b2 ∧ b2 ≤ 0xBF) then
          (utf8Decode? bs2).map
            (fun cs =>
              Char.ofNat ((b0 - 0xE0) * 0x1000 + (b1 - 0x80) * 0x40 + (b2 - 0x80)) :: cs)
        else none
      | _ => none
    else if 0xF0 ≤ b0 ∧ b0 ≤ 0xF4 then
      match bs with
      | b1 :: b2 :: b3 :: bs3 =>
        if (contLB4 b0 ≤ b1 ∧ b1 ≤ contUB4 b0) ∧ (0x80 ≤ b2 ∧ b2 ≤ 0xBF)
            ∧ (0x80 ≤ b3 ∧ b3 ≤ 0xBF) then
          (utf8Decode? bs3).map
            (fun cs =>
              Char.ofNat ((b0 - 0xF0) * 0x40000 + (b1 - 0x80) * 0x1000
                + (b2 - 0x80) * 0x40 + (b3 - 0x80)) :: cs)
        else none
      | _ => none
    else none

/-- Latin-1 decoding: each byte is its own code point; total over all byte
values (`src/app.py:83`, `src/analyze_csv.py:29`). -/
def latin1Decode (data : List Nat) : List Char := data.map Char.ofNat

/-- The decode step of both pipelines (`src/app.py:79-84`,
`src/analyze_csv.py:25-30`): strict UTF-8 first; on `UnicodeDecodeError`
the same bytes are re-decoded as Latin-1 and the tag flips to "latin-1". -/
def decodeBytes (data : List Nat) : List Char × String :=
  match utf8Decode? data with
  | some cs => (cs, "utf-8")
  | none => (latin1Decode data, "latin-1")

/-- The fixed delimiter candidate set passed to the sniffer
(`src/app.py:68`, `src/analyze_csv.py:17`). -/
def candidateDelims : List Char := [',', ';', '\t', '|', ':']

/-- The repository's `sniff_delimiter` (`src/app.py:63-71`,
`src/analyze_csv.py:15-20`, identical in both files): call
`csv.Sniffer().sniff(sample, delimiters=[...])`, and map any exception to
the default comma.  The library call is abstracted as a total function
into `Except Unit Char`: `Except.error` stands for any raised exception. -/
def sniff_delimiter (sniff : List Char → Except Unit Char)
    (sample_text : List Char) : Char :=
  match sniff sample_text with
  | Except.ok d => d
  | Except.error _ => ','

/-- The unit symbols of `human_bytes` (`src/app.py:55`,
`src/analyze_csv.py:37`). -/
def symbols : List String := ["B", "KB", "MB", "GB", "TB"]

/-- The `while f >= 1024 and i < len(symbols) - 1` loop of `human_bytes`
(`src/app.py:58-60`, `src/analyze_csv.py:40-42`), with the float value
carried exactly as a rational: division of an IEEE double by 1024 only
decrements the exponent, so the loop arithmetic is exact. -/
def humanLoop (f : ℚ) (i : Nat) : ℚ × Nat :=
  if h : 1024 ≤ f ∧ i < 4 then humanLoop (f / 1024) (i + 1) else (f, i)
termination_by 4 - i
decreasing_by
  omega

/-- The repository's `human_bytes` (`src/app.py:51-61`,
`src/analyze_csv.py:36-43`), returning the numeric value and the unit
symbol; the final 2-decimal string formatting is presentation only and is
elided. -/
def human_bytes (num : Nat) : ℚ × String :=
  let p := humanLoop (num : ℚ) 0
  (p.1, symbols.getD p.2 "B")

/-- A sniffer that raises on every sample: the concrete instance used to
witness the sniffer-wrapper theorem. -/
def constFailSniff : List Char → Except Unit Char := fun _ => Except.error ()

/-- A cell of the parsed table: the distinguished Missing marker, or a
field value kept as its character sequence (spec section 3, Cell). -/
inductive Cell where
  | missing : Cell
  | val : List Char → Cell
deriving DecidableEq

/-- Inferred column types (spec section 4.3 step 4 and the glossary). -/
inductive Dtype where
  | integer : Dtype
  | float : Dtype
  | boolean : Dtype
  | datetime : Dtype
  | string : Dtype
deriving DecidableEq

/-- The error taxonomy the caller catches (`src/app.py:213-219`):
`pandas.errors.EmptyDataError` and `pandas.errors.ParserError`. -/
inductive AnalysisError where
  | emptyData : AnalysisError
  | parseError : AnalysisError
deriving DecidableEq

/-- Splitting accumulator: Python's `str.split(sep)` over code points. -/
def splitAux (sep : Char) : List Char → List Char → List (List Char)
  | [], acc => [acc.reverse]
  | c :: cs, acc =>
    if c = sep then acc.reverse :: splitAux sep cs [] else splitAux sep cs (c :: acc)

/-- Python's `text.split(sep)` for a one-character separator. -/
def splitOnChar (sep : Char) (l : List Char) : List (List Char) := splitAux sep l []

/-- The non-blank lines of the decoded text, in order: the parser's
parsable lines (blank lines are skipped, spec section 4.3 step 1). -/
def nonEmptyLines (text : List Char) : List (List Char) :=
  (splitOnChar '\n' text).filter (fun l => !l.isEmpty)

/-- A leading `+` or `-` sign, dropped before digit tests. -/
def stripSign (s : List Char) : List Char :=
  match s with
  | c :: rest => if c = '-' ∨ c = '+' then rest else s
  | [] => []

/-- Modelled from the spec: the integer coercion of the Table Parser's
cascade (spec section 4.3 step 4); the deciding code is pandas' numeric
conversion, not in the repository sources.  An optional sign followed by
at least one digit. -/
def isIntStr (s : List Char) : Bool :=
  let ds := stripSign s
  !ds.isEmpty && ds.all Char.isDigit

/-- Modelled from the spec: the float coercion of the cascade.  An
optional sign, digits with at most one decimal point, at least one
digit. -/
def isFloatStr (s : List Char) : Bool :=
  let ds := stripSign s
  !ds.isEmpty && ds.all (fun c => c.isDigit || c = '.')
    && decide (ds.countP (fun c => decide (c = '.')) ≤ 1) && ds.any Char.isDigit

/-- Modelled from the spec: the boolean coercion of the cascade. -/
def isBoolStr (s : List Char) : Bool :=
  decide (s = "True".toList) || decide (s = "False".toList)
    || decide (s = "true".toList) || decide (s = "false".toList)

/-- Modelled from the spec: the datetime coercion of the cascade, for
ISO `YYYY-MM-DD` fields. -/
def isDateStr (s : List Char) : Bool :=
  match s with
  | [y1, y2, y3, y4, h1, m1, m2, h2, d1, d2] =>
    y1.isDigit && y2.isDigit && y3.isDigit && y4.isDigit && decide (h1 = '-')
      && m1.isDigit && m2.isDigit && decide (h2 = '-') && d1.isDigit && d2.isDigit
  | _ => false

/-- Modelled from the spec: empty fields become the Missing marker (spec
section 4.3 step 3 and section 3, Cell). -/
def toCell (s : List Char) : Cell :=
  if s.isEmpty then Cell.missing else Cell.val s

/-- The non-missing values of a column, the inputs of type inference
(Missing is excluded, spec glossary). -/
def nonMissingVals (col : List Cell) : List (List Char) :=
  col.filterMap (fun c =>
    match c with
    | Cell.missing => none
    | Cell.val s => some s)

/-- Modelled from the spec: the Dtype coercion cascade (spec section 4.3
step 4) — try integer for all non-missing values, else float, else
boolean, else datetime, else leave as string; the deciding code is
pandas' column type inference, not in the repository sources. -/
def inferDtype (col : List Cell) : Dtype :=
  let vs := nonMissingVals col
  if vs.all isIntStr then Dtype.integer
  else if vs.all isFloatStr then Dtype.float
  else if vs.all isBoolStr then Dtype.boolean
  else if vs.all isDateStr then Dtype.datetime
  else Dtype.string

/-- The parsed tabular value: ordered column names and ordered rows of
cells (spec section 3, Table). -/
structure Table where
  header : List (List Char)
  rows : List (List Cell)
deriving DecidableEq

/-- The Table invariant: all rows have the same length as the header
(spec section 3). -/
def wellFormed (t : Table) : Prop := ∀ r ∈ t.rows, r.length = t.header.length

/-- Field count of a line under a candidate separator. -/
def splitCount (d : Char) (l : List Char) : Nat := (splitOnChar d l).length

/-- Modelled from the spec: a candidate separator explains the lines when
every line splits into the same field count and that count exceeds one
(spec section 4.2's consistency measure, applied by the parser's own
auto-detection pass, section 4.3 step 2). -/
def consistentDelim (lines : List (List Char)) (d : Char) : Bool :=
  match lines with
  | [] => false
  | l0 :: rest =>
    decide (1 < splitCount d l0)
      && rest.all (fun l => decide (splitCount d l = splitCount d l0))

/-- Modelled from the spec: the parser's own separator auto-detection over
the full text (spec section 4.3 step 2), independent of the advisory
sniffer; comma when no candidate is consistent. -/
def autoDelim (lines : List (List Char)) : Char :=
  match candidateDelims.filter (consistentDelim lines) with
  | [] => ','
  | d :: _ => d

/-- Modelled from the spec: `pandas.read_csv(io.StringIO(text), sep=None,
engine="python")` — the Table Parser, whose deciding code is pandas, not
in the repository sources.  Per spec section 4.3: the first non-blank line
is the header; the separator is re-derived from the full text; empty
fields are Missing; a row whose field count deviates from the header is a
parse error; input with no parsable rows or columns at all — no non-blank
line, or none besides the header (zero-row or zero-column post-header,
spec section 8) — is `EmptyDataError`.  The `lowMemory` flag is accepted
but inert: `low_memory` is a C-engine option while this call fixes
`engine="python"` (see the comment at `src/app.py:90`). -/
def read_csv (lowMemory : Bool) (text : List Char) : Except AnalysisError Table :=
  let lines := nonEmptyLines text
  match lines with
  | [] => Except.error AnalysisError.emptyData
  | headerLine :: dataLines =>
    match dataLines with
    | [] => Except.error AnalysisError.emptyData
    | _ :: _ =>
      let d := autoDelim lines
      let cols := splitOnChar d headerLine
      let cellRows := dataLines.map (fun l => (splitOnChar d l).map toCell)
      if cellRows.all (fun r => decide (r.length = cols.length)) then
        Except.ok { header := cols, rows := cellRows }
      else Except.error AnalysisError.parseError

/-- `rows = len(df)` (`src/app.py:98`, `src/analyze_csv.py:53`). -/
def tableRows (t : Table) : Nat := t.rows.length

/-- `cols = df.shape[1]` (`src/app.py:99`, `src/analyze_csv.py:54`). -/
def tableCols (t : Table) : Nat := t.header.length

/-- Count of Missing cells in one cell sequence. -/
def missingCellCount (col : List Cell) : Nat :=
  col.countP (fun c => decide (c = Cell.missing))

/-- Column `j` of the table, as the sequence of its cells row by row. -/
def colCells (t : Table) (j : Nat) : List Cell :=
  t.rows.map (fun r => r.getD j (Cell.val []))

/-- Modelled from the spec: `df.isna().sum()` per column (`src/app.py:106`,
`src/analyze_csv.py:56`; pandas marks exactly the Missing cells na). -/
def missing_per_col (t : Table) : List Nat :=
  (List.range (tableCols t)).map (fun j => missingCellCount (colCells t j))

/-- `overall_missing` (`src/app.py:110`, `src/analyze_csv.py:59`): the sum
of the per-column missing counts. -/
def overall_missing (t : Table) : Nat := (missing_per_col t).sum

/-- `total_cells = rows * cols` (`src/app.py:109`, `src/analyze_csv.py:58`). -/
def total_cells (t : Table) : Nat := tableRows t * tableCols t

/-- `overall_missing_pct` (`src/app.py:111`, `src/analyze_csv.py:60`):
`overall_missing / total_cells * 100.0` guarded by `total_cells > 0`,
else `0.0`. -/
def overall_missing_pct (t : Table) : ℚ :=
  if 0 < total_cells t then (overall_missing t : ℚ) / (total_cells t : ℚ) * 100
  else 0

/-- The total count of Missing cells, summed row by row: the claim's
reading of "sum of missing over all cells". -/
def totalMissingCells (t : Table) : Nat :=
  (t.rows.map (fun r => missingCellCount r)).sum

/-- Modelled from the spec: `df.duplicated()` (`src/app.py:113`,
`src/analyze_csv.py:61`) — one flag per row, true when the row equals a
row seen before it (the first occurrence of each distinct row is not
flagged; spec section 4.4, duplicate_count).  `seen` holds the rows
already passed. -/
def duplicatedFlags : List (List Cell) → List (List Cell) → List Bool
  | _, [] => []
  | seen, r :: rs => decide (r ∈ seen) :: duplicatedFlags (r :: seen) rs

/-- `df.duplicated()` starting from no rows seen. -/
def duplicated (rows : List (List Cell)) : List Bool := duplicatedFlags [] rows

/-- `duplicates_count = int(df.duplicated().sum())` (`src/app.py:113`,
`src/analyze_csv.py:61`). -/
def duplicates_count (rows : List (List Cell)) : Nat := (duplicated rows).count true

/-- `dup_preview_df = df[df.duplicated()].head(10)` (`src/app.py:114`,
`src/analyze_csv.py:62`): the first at most 10 flagged rows in original
order. -/
def dup_preview (rows : List (List Cell)) : List (List Cell) :=
  (((rows.zip (duplicated rows)).filter (fun p => p.2)).map (fun p => p.1)).take 10

/-- Position `i` holds a duplicate of an earlier row: the claim's
specification of a duplicate, as a bounded search over earlier
positions. -/
def dupOfEarlier (rows : List (List Cell)) (i : Nat) : Bool :=
  (List.range i).any (fun j => decide (rows.getD j [] = rows.getD i []))

/-- Modelled from the spec: the byte cost of holding one cell (spec
section 4.4, memory_estimate_bytes) — strings cost a fixed object header
plus their encoded byte length, the Missing marker costs its fixed
storage width. -/
def cellBytes : Cell → Nat
  | Cell.missing => 8
  | Cell.val s => 57 + (s.map (fun c => c.utf8Size)).sum

/-- Modelled from the spec: fixed per-row bookkeeping overhead of the
memory estimate (spec section 4.4). -/
def rowOverhead : Nat := 8

/-- Modelled from the spec: fixed per-column bookkeeping overhead of the
memory estimate (spec section 4.4). -/
def colOverhead : Nat := 8

/-- Modelled from the spec: fixed overhead of the index structure itself
(`df.memory_usage(deep=True)` includes an Index entry). -/
def indexOverhead : Nat := 128

/-- Modelled from the spec: `int(df.memory_usage(deep=True).sum())`
(`src/app.py:134`, `src/analyze_csv.py:67`) — the sum over all cells of
the cell's storage cost plus fixed per-column and per-row bookkeeping
overhead (spec section 4.4). -/
def memory_usage_bytes (t : Table) : Nat :=
  indexOverhead + tableCols t * colOverhead + tableRows t * rowOverhead
    + (t.rows.map (fun r => (r.map cellBytes).sum)).sum

/-- The table with one row appended at the end. -/
def appendRow (t : Table) (r : List Cell) : Table :=
  { t with rows := t.rows ++ [r] }

/-- One Dtype label per column, in column order (`src/app.py:101-104`,
`src/analyze_csv.py:55`, with the inference itself spec-modelled in
`inferDtype`). -/
def dtypes (t : Table) : List Dtype :=
  (List.range (tableCols t)).map (fun j => inferDtype (colCells t j))

/-- The Report: the statistics `compute_stats` (`src/app.py:94-149`) and
the CLI's `main` (`src/analyze_csv.py:53-67`) compute.  The numeric
summary is omitted: it is presentation of `df.describe` and no claim
mentions its contents. -/
structure Report where
  rows : Nat
  cols : Nat
  dtypeList : List Dtype
  missingPerColumn : List Nat
  overallMissing : Nat
  overallMissingPct : ℚ
  duplicatesCount : Nat
  dupPreview : List (List Cell)
  preview : List (List Cell)
  memUsageBytes : Nat
deriving DecidableEq

/-- `compute_stats` (`src/app.py:94-149`; the CLI computes the same
quantities inline at `src/analyze_csv.py:53-67`). -/
def compute_stats (t : Table) : Report :=
  { rows := tableRows t
    cols := tableCols t
    dtypeList := dtypes t
    missingPerColumn := missing_per_col t
    overallMissing := overall_missing t
    overallMissingPct := overall_missing_pct t
    duplicatesCount := duplicates_count t.rows
    dupPreview := dup_preview t.rows
    preview := t.rows.take 10
    memUsageBytes := memory_usage_bytes t }

/-- `parse_csv_bytes` (`src/app.py:73-92`): decode with fallback, sniff
the first 10000 characters for display, parse with the engine's own
auto-detection (`sep=None`, `engine="python"`, `low_memory` left at its
default). -/
def parse_csv_bytes (sniff : List Char → Except Unit Char)
    (data_bytes : List Nat) : Except AnalysisError (Table × String × Char) :=
  let p := decodeBytes data_bytes
  let sample := p.1.take 10000
  let detected_delimiter := sniff_delimiter sniff sample
  (read_csv true p.1).map (fun df => (df, p.2, detected_delimiter))

/-- `read_csv_with_fallback` (`src/analyze_csv.py:23-33`): the CLI's
pipeline — identical decode, sniff and parse, with `low_memory=False`
passed to the parser. -/
def read_csv_with_fallback (sniff : List Char → Except Unit Char)
    (data_bytes : List Nat) : Except AnalysisError (Table × String × Char) :=
  let p := decodeBytes data_bytes
  let detected_delimiter := sniff_delimiter sniff (p.1.take 10000)
  (read_csv false p.1).map (fun df => (df, p.2, detected_delimiter))

/-- The core analyze operation (spec section 6): bytes to Report or
error, through decode, sniff, parse and profile. -/
def analyze (sniff : List Char → Except Unit Char)
    (data_bytes : List Nat) : Except AnalysisError Report :=
  (parse_csv_bytes sniff data_bytes).map (fun r => compute_stats r.1)

/-- A concrete one-column, one-row table used to witness theorems with a
well-formedness hypothesis. -/
def sampleTable : Table := { header := [['a']], rows := [[Cell.val ['1']]] }

/-- C1: for every byte sequence the decode step is total (a plain function
of the bytes, first component as given by the strict-UTF-8 attempt with
Latin-1 as the fallback), and the reported encoding is "utf-8" exactly
when the bytes are valid UTF-8, "latin-1" exactly otherwise. -/
theorem decode_utf8_fallback (b : List Nat) :
    decodeBytes b
      = ((utf8Decode? b).getD (latin1Decode b),
         if (utf8Decode? b).isSome then "utf-8" else "latin-1")
    ∧ ((decodeBytes b).2 = "utf-8" ↔ (utf8Decode? b).isSome = true)
    ∧ ((decodeBytes b).2 = "latin-1" ↔ (utf8Decode? b).isSome = false) := by
  cases h : utf8Decode? b <;> simp [decodeBytes, h]

/-- C2: the sniffer wrapper never raises: under the library guarantee that
a successful `csv.Sniffer().sniff(sample, delimiters=[...])` returns one
of the delimiters it was passed, the wrapper's result is always drawn from
the fixed candidate set, and any raised exception is mapped to the default
comma. -/
theorem sniff_delimiter_total (sniff : List Char → Except Unit Char)
    (sample_text : List Char)
    (hlib : ∀ s d, sniff s = Except.ok d → d ∈ candidateDelims) :
    sniff_delimiter sniff sample_text ∈ candidateDelims
    ∧ (∀ e, sniff sample_text = Except.error e →
        sniff_delimiter sniff sample_text = ',') := by
  constructor
  · cases h : sniff sample_text with
    | ok d =>
      simpa [sniff_delimiter, h] using hlib sample_text d h
    | error e =>
      simp [sniff_delimiter, h, candidateDelims]
  · intro e he
    simp [sniff_delimiter, he]

/-- Witness for C2: the sniffer that always raises yields the comma
default, a member of the candidate set. -/
theorem sniff_delimiter_total_witness :
    sniff_delimiter constFailSniff [] ∈ candidateDelims
    ∧ (∀ e, constFailSniff [] = Except.error e →
        sniff_delimiter constFailSniff [] = ',') :=
  sniff_delimiter_total constFailSniff []
    (fun s d h => absurd h (by simp [constFailSniff]))

/-- Invariant of the `human_bytes` loop: starting at index `i ≤ 4` it stops
after `m` further divisions with the value divided by `1024 ^ m`, where `m`
is determined by the first index at which the value drops below 1024, or
the index cap 4. -/
theorem humanLoop_spec (k : Nat) : ∀ (i : Nat) (f : ℚ), 4 - i = k → i ≤ 4 →
    ∃ m, humanLoop f i = (f / 1024 ^ m, i + m) ∧ i + m ≤ 4
      ∧ (∀ j, j < m → 1024 ≤ f / 1024 ^ j)
      ∧ (f / 1024 ^ m < 1024 ∨ i + m = 4) := by
  induction k with
  | zero =>
    intro i f hk hi
    have hi4 : i = 4 := by omega
    subst hi4
    refine ⟨0, ?_, by omega, by omega, Or.inr rfl⟩
    rw [humanLoop]
    simp
  | succ n ih =>
    intro i f hk hi
    rw [humanLoop]
    by_cases h : 1024 ≤ f ∧ i < 4
    · rw [dif_pos h]
      obtain ⟨m, hm, hle, hja, hstop⟩ := ih (i + 1) (f / 1024) (by omega) (by omega)
      have hdiv : ∀ j : Nat, f / 1024 / 1024 ^ j = f / 1024 ^ (j + 1) := by
        intro j
        rw [div_div, ← pow_succ']
      refine ⟨m + 1, ?_, by omega, ?_, ?_⟩
      · rw [hm, hdiv m]
        have : i + 1 + m = i + (m + 1) := by omega
        rw [this]
      · intro j hj
        cases j with
        | zero => simpa using h.1
        | succ j' => rw [← hdiv j']; exact hja j' (by omega)
      · rcases hstop with hlt | heq
        · exact Or.inl (by rw [← hdiv m]; exact hlt)
        · exact Or.inr (by omega)
    · rw [dif_neg h]
      refine ⟨0, by simp, by omega, by omega, ?_⟩
      rcases not_and_or.mp h with hf | hi4
      · exact Or.inl (by simpa using lt_of_not_le hf)
      · exact Or.inr (by omega)

/-- C10: for every non-negative integer input `human_bytes` terminates
with at most four divisions by 1024, its unit symbol is one of
B, KB, MB, GB, TB, and its numeric part is the input divided by `1024 ^ i`
for the smallest index `i` such that the result is below 1024 or `i = 4`. -/
theorem human_bytes_spec (num : Nat) :
    ∃ i, i ≤ 4
      ∧ human_bytes num = ((num : ℚ) / 1024 ^ i, symbols.getD i "B")
      ∧ symbols.getD i "B" ∈ symbols
      ∧ (∀ j, j < i → 1024 ≤ (num : ℚ) / 1024 ^ j)
      ∧ ((num : ℚ) / 1024 ^ i < 1024 ∨ i = 4) := by
  obtain ⟨m, hm, hle, hja, hstop⟩ := humanLoop_spec 4 0 (num : ℚ) rfl (by omega)
  have hm4 : m ≤ 4 := by omega
  refine ⟨m, hm4, ?_, ?_, hja, ?_⟩
  · unfold human_bytes
    rw [hm]
    simp
  · interval_cases m <;> simp [symbols]
  · simpa using hstop

/-- C7: the memory estimate is strictly monotonic in table content —
appending one row strictly increases `memory_usage_bytes`, for every
table and every appended row. -/
theorem memory_usage_append_row_strict (t : Table) (r : List Cell) :
    memory_usage_bytes t < memory_usage_bytes (appendRow t r) := by
  unfold memory_usage_bytes appendRow tableRows tableCols rowOverhead colOverhead indexOverhead
  simp only [List.map_append, List.sum_append, List.length_append,
    List.map_cons, List.map_nil, List.sum_cons, List.sum_nil, List.length_cons,
    List.length_nil]
  omega

/-- C8: the sniffed delimiter is display-only — for every decoded text
the parser's result is identical whatever the sniffer returned: the
table and encoding components of `parse_csv_bytes` agree for any two
sniffers. -/
theorem sniffer_no_influence (sniff1 sniff2 : List Char → Except Unit Char)
    (data_bytes : List Nat) :
    (parse_csv_bytes sniff1 data_bytes).map (fun r => (r.1, r.2.1))
      = (parse_csv_bytes sniff2 data_bytes).map (fun r => (r.1, r.2.1)) := by
  simp only [parse_csv_bytes]
  cases h : read_csv true (decodeBytes data_bytes).1 <;> simp [h, Except.map]

/-- C9: the two duplicated ingestion pipelines are extensionally equal:
for every byte sequence (and any behavior of the library sniffer), the
web surface's `parse_csv_bytes` and the CLI's `read_csv_with_fallback`
produce the same (table, encoding_used, detected_delimiter) triple; the
`low_memory` argument, their only textual difference, is inert for the
python engine. -/
theorem pipelines_extensionally_equal (sniff : List Char → Except Unit Char)
    (data_bytes : List Nat) :
    parse_csv_bytes sniff data_bytes = read_csv_with_fallback sniff data_bytes := by
  unfold parse_csv_bytes read_csv_with_fallback
  rfl

/-- The parser model fails with `EmptyDataError` exactly when the text has
at most one non-blank line: none at all (zero columns), or only the
header (zero rows post-header). -/
theorem read_csv_emptyData_iff (lm : Bool) (text : List Char) :
    read_csv lm text = Except.error AnalysisError.emptyData
      ↔ (nonEmptyLines text).length ≤ 1 := by
  unfold read_csv
  cases h : nonEmptyLines text with
  | nil => simp
  | cons headerLine dataLines =>
    cases dataLines with
    | nil => simp
    | cons r rs =>
      dsimp only
      split <;> simp

/-- C4: analyze yields `EmptyDataError` — and no Report — exactly when the
decoded text has no parsable content: no non-blank line at all (zero
columns) or none besides the header (zero rows post-header). -/
theorem analyze_empty_data (sniff : List Char → Except Unit Char)
    (data_bytes : List Nat) :
    analyze sniff data_bytes = Except.error AnalysisError.emptyData
      ↔ (nonEmptyLines (decodeBytes data_bytes).1).length ≤ 1 := by
  have hr := read_csv_emptyData_iff true (decodeBytes data_bytes).1
  simp only [analyze, parse_csv_bytes]
  cases h : read_csv true (decodeBytes data_bytes).1 with
  | error e =>
    rw [h] at hr
    simp only [h, Except.map]
    simpa using hr
  | ok t =>
    rw [h] at hr
    simp only [h, Except.map]
    simpa using hr

/-- A value of a column is among its non-missing inference inputs. -/
theorem val_mem_nonMissingVals {col : List Cell} {s : List Char}
    (h : Cell.val s ∈ col) : s ∈ nonMissingVals col := by
  unfold nonMissingVals
  exact List.mem_filterMap.mpr ⟨Cell.val s, h, rfl⟩

/-- One failing member refutes a bounded all-quantifier. -/
theorem all_eq_false_of_mem {α : Type} {p : α → Bool} {l : List α} {s : α}
    (hs : s ∈ l) (hp : p s = false) : l.all p = false := by
  cases hall : l.all p
  · rfl
  · exact absurd (List.all_eq_true.mp hall s hs) (by simp [hp])

/-- C3: the Dtype of a column is decided by the coercion cascade over its
non-missing cells — integer first, else float, else boolean, else
datetime, else string; a single value failing every coercion forces the
string fallback; and the column ["1", "", "3"] is typed integer with its
one Missing cell excluded from inference. -/
theorem dtype_coercion_cascade :
    (∀ col s, Cell.val s ∈ col → isIntStr s = false → isFloatStr s = false →
        isBoolStr s = false → isDateStr s = false → inferDtype col = Dtype.string)
    ∧ (∀ col, inferDtype col = Dtype.integer ↔ (nonMissingVals col).all isIntStr = true)
    ∧ (∀ col, inferDtype col = Dtype.float ↔
        ((nonMissingVals col).all isIntStr = false
          ∧ (nonMissingVals col).all isFloatStr = true))
    ∧ (∀ col, inferDtype col = Dtype.boolean ↔
        ((nonMissingVals col).all isIntStr = false
          ∧ (nonMissingVals col).all isFloatStr = false
          ∧ (nonMissingVals col).all isBoolStr = true))
    ∧ (∀ col, inferDtype col = Dtype.datetime ↔
        ((nonMissingVals col).all isIntStr = false
          ∧ (nonMissingVals col).all isFloatStr = false
          ∧ (nonMissingVals col).all isBoolStr = false
          ∧ (nonMissingVals col).all isDateStr = true))
    ∧ inferDtype [Cell.val ['1'], Cell.missing, Cell.val ['3']] = Dtype.integer
    ∧ missingCellCount [Cell.val ['1'], Cell.missing, Cell.val ['3']] = 1 := by
  refine ⟨?_, ?_, ?_, ?_, ?_, by decide, by decide⟩
  · intro col s hmem hInt hFloat hBool hDate
    have hs := val_mem_nonMissingVals hmem
    have aInt := all_eq_false_of_mem hs hInt
    have aFloat := all_eq_false_of_mem hs hFloat
    have aBool := all_eq_false_of_mem hs hBool
    have aDate := all_eq_false_of_mem hs hDate
    unfold inferDtype
    dsimp only
    simp [aInt, aFloat, aBool, aDate]
  · intro col
    unfold inferDtype
    dsimp only
    split_ifs <;> simp_all
  · intro col
    unfold inferDtype
    dsimp only
    split_ifs <;> simp_all
  · intro col
    unfold inferDtype
    dsimp only
    split_ifs <;> simp_all
  · intro col
    unfold inferDtype
    dsimp only
    split_ifs <;> simp_all

/-- Sums of pointwise sums split. -/
theorem sum_map_add {α : Type} (l : List α) (f g : α → Nat) :
    (l.map (fun x => f x + g x)).sum = (l.map f).sum + (l.map g).sum := by
  induction l with
  | nil => simp
  | cons a l ih =>
    simp only [List.map_cons, List.sum_cons, ih]
    omega

/-- Summing the Missing indicator over a row's positions counts its
Missing cells. -/
theorem missing_indicator_sum (r : List Cell) :
    ((List.range r.length).map
      (fun j => if r.getD j (Cell.val []) = Cell.missing then 1 else 0)).sum
      = missingCellCount r := by
  induction r with
  | nil => simp [missingCellCount]
  | cons a as ih =>
    rw [List.length_cons, List.range_succ_eq_map, List.map_cons, List.map_map]
    simp only [Function.comp_def, Nat.succ_eq_add_one, List.getD_cons_zero,
      List.getD_cons_succ, List.sum_cons]
    rw [ih]
    simp only [missingCellCount, List.countP_cons, decide_eq_true_eq]
    omega

/-- Summing Missing counts per column equals summing them per row, for
rows of uniform length `c`. -/
theorem missing_swap (c : Nat) : ∀ (rows : List (List Cell)),
    (∀ r ∈ rows, r.length = c) →
    ((List.range c).map (fun j =>
        (rows.map (fun r => r.getD j (Cell.val []))).countP
          (fun x => decide (x = Cell.missing)))).sum
      = (rows.map missingCellCount).sum := by
  intro rows
  induction rows with
  | nil => intro _; simp
  | cons r rs ih =>
    intro hwf
    have hr : r.length = c := hwf r (by simp)
    have hrs : ∀ x ∈ rs, x.length = c := fun x hx => hwf x (by simp [hx])
    simp only [List.map_cons, List.countP_cons, List.sum_cons, decide_eq_true_eq]
    rw [sum_map_add (List.range c)
      (fun j => (rs.map (fun r => r.getD j (Cell.val []))).countP
        (fun x => decide (x = Cell.missing)))
      (fun j => if r.getD j (Cell.val []) = Cell.missing then 1 else 0)]
    rw [ih hrs, ← hr, missing_indicator_sum]
    omega

/-- The per-column missing sum counts every Missing cell once: for a
well-formed table it equals the row-by-row total. -/
theorem overall_missing_eq_total (t : Table) (h : wellFormed t) :
    overall_missing t = totalMissingCells t := by
  unfold overall_missing missing_per_col totalMissingCells tableCols colCells missingCellCount
  exact missing_swap t.header.length t.rows h

/-- The missing count never exceeds the cell count. -/
theorem overall_missing_le (t : Table) : overall_missing t ≤ total_cells t := by
  unfold overall_missing missing_per_col total_cells tableRows tableCols missingCellCount colCells
  have hb : ∀ x ∈ (List.range t.header.length).map (fun j =>
      (t.rows.map (fun r => r.getD j (Cell.val []))).countP
        (fun c => decide (c = Cell.missing))), x ≤ t.rows.length := by
    intro x hx
    obtain ⟨j, hj, rfl⟩ := List.mem_map.mp hx
    calc (t.rows.map (fun r => r.getD j (Cell.val []))).countP
          (fun c => decide (c = Cell.missing))
        ≤ (t.rows.map (fun r => r.getD j (Cell.val []))).length :=
          List.countP_le_length _
      _ = t.rows.length := List.length_map _ _
  have h1 := List.sum_le_card_nsmul _ t.rows.length hb
  simpa [List.length_map, List.length_range, smul_eq_mul, Nat.mul_comm] using h1

/-- C5: `overall_missing_pct` equals the total Missing count divided by
`rows*cols` times 100 (the per-column sum counts exactly the Missing
cells of a well-formed table), is 0.0 — without a division error — when
`rows*cols == 0`, and always lies in [0, 100]. -/
theorem overall_missing_pct_props (t : Table) (h : wellFormed t) :
    overall_missing t = totalMissingCells t
    ∧ (0 < total_cells t →
        overall_missing_pct t
          = (overall_missing t : ℚ) / (total_cells t : ℚ) * 100)
    ∧ (total_cells t = 0 → overall_missing_pct t = 0)
    ∧ 0 ≤ overall_missing_pct t
    ∧ overall_missing_pct t ≤ 100 := by
  refine ⟨overall_missing_eq_total t h, ?_, ?_, ?_, ?_⟩
  · intro hpos
    unfold overall_missing_pct
    rw [if_pos hpos]
  · intro h0
    unfold overall_missing_pct
    rw [if_neg (by omega)]
  · unfold overall_missing_pct
    split
    · positivity
    · exact le_refl 0
  · unfold overall_missing_pct
    split
    · rename_i hpos
      have hle : (overall_missing t : ℚ) ≤ (total_cells t : ℚ) := by
        exact_mod_cast overall_missing_le t
      have hTpos : (0 : ℚ) < (total_cells t : ℚ) := by exact_mod_cast hpos
      have hdiv : (overall_missing t : ℚ) / (total_cells t : ℚ) ≤ 1 :=
        (div_le_one hTpos).mpr hle
      calc (overall_missing t : ℚ) / (total_cells t : ℚ) * 100
          ≤ 1 * 100 := mul_le_mul_of_nonneg_right hdiv (by norm_num)
        _ = 100 := by norm_num
    · norm_num

/-- Witness for C5: the percentage properties at a concrete one-cell
table. -/
theorem overall_missing_pct_props_witness :
    overall_missing sampleTable = totalMissingCells sampleTable
    ∧ (0 < total_cells sampleTable →
        overall_missing_pct sampleTable
          = (overall_missing sampleTable : ℚ) / (total_cells sampleTable : ℚ) * 100)
    ∧ (total_cells sampleTable = 0 → overall_missing_pct sampleTable = 0)
    ∧ 0 ≤ overall_missing_pct sampleTable
    ∧ overall_missing_pct sampleTable ≤ 100 :=
  overall_missing_pct_props sampleTable (by
    intro r hr
    simp only [sampleTable, List.mem_singleton] at hr
    subst hr
    rfl)

/-- Bool bookkeeping for the seen-set recursion: checking membership in
the grown seen list is checking the new head first. -/
theorem dup_pointwise (r x : List Cell) (seen : List (List Cell)) (b : Bool) :
    ((decide (x = r) || decide (x ∈ seen)) || b)
      = (decide (x ∈ seen) || (decide (r = x) || b)) := by
  by_cases h : x = r
  · subst h
    simp
  · have h' : ¬(r = x) := fun hh => h hh.symm
    rw [decide_eq_false h, decide_eq_false h']
    simp

/-- Unfolding the earlier-duplicate search one position. -/
theorem dupOfEarlier_cons_succ (r : List Cell) (rs : List (List Cell)) (i : Nat) :
    dupOfEarlier (r :: rs) (i + 1)
      = (decide (r = rs.getD i []) || dupOfEarlier rs i) := by
  unfold dupOfEarlier
  rw [List.range_succ_eq_map, List.any_cons, List.any_map]
  simp only [Function.comp_def, Nat.succ_eq_add_one, List.getD_cons_succ,
    List.getD_cons_zero]

/-- The seen-set recursion computes, at each position, membership in the
initial seen set or an earlier equal row. -/
theorem duplicatedFlags_eq (l : List (List Cell)) : ∀ (seen : List (List Cell)),
    duplicatedFlags seen l = (List.range l.length).map
      (fun i => decide (l.getD i [] ∈ seen) || dupOfEarlier l i) := by
  induction l with
  | nil => intro seen; rfl
  | cons r rs ih =>
    intro seen
    rw [List.length_cons, List.range_succ_eq_map, List.map_cons, List.map_map]
    show decide (r ∈ seen) :: duplicatedFlags (r :: seen) rs = _
    congr 1
    · simp [dupOfEarlier]
    · rw [ih (r :: seen)]
      apply List.map_congr_left
      intro i hi
      simp only [Function.comp_apply, Nat.succ_eq_add_one, List.getD_cons_succ]
      rw [dupOfEarlier_cons_succ]
      simp only [List.mem_cons, Bool.decide_or]
      exact dup_pointwise r (rs.getD i []) seen (dupOfEarlier rs i)

/-- `df.duplicated()` flags exactly the positions holding a duplicate of
an earlier row. -/
theorem duplicated_eq (rows : List (List Cell)) :
    duplicated rows = (List.range rows.length).map (fun i => dupOfEarlier rows i) := by
  unfold duplicated
  rw [duplicatedFlags_eq rows []]
  apply List.map_congr_left
  intro i hi
  simp

/-- Counting true flags is counting with the identity predicate. -/
theorem count_true_eq_countP (bl : List Bool) :
    bl.count true = bl.countP (fun b => b) := by
  induction bl with
  | nil => rfl
  | cons b bs ih => cases b <;> simp [List.count_cons, List.countP_cons, ih]

/-- A list zipped against the map of its positions is the map of the
paired positions. -/
theorem zip_range_map {α β : Type} (d : α) : ∀ (l : List α) (g : Nat → β),
    l.zip ((List.range l.length).map g)
      = (List.range l.length).map (fun i => (l.getD i d, g i)) := by
  intro l
  induction l with
  | nil => intro g; simp
  | cons a as ih =>
    intro g
    rw [List.length_cons, List.range_succ_eq_map, List.map_cons, List.map_map,
      List.zip_cons_cons, List.map_cons, List.map_map, ih (g ∘ Nat.succ)]
    simp only [Function.comp_def, Nat.succ_eq_add_one, List.getD_cons_zero,
      List.getD_cons_succ]

/-- `duplicates_count` counts the positions whose row duplicates an
earlier one. -/
theorem duplicates_count_eq (rows : List (List Cell)) :
    duplicates_count rows
      = ((List.range rows.length).filter (fun i => dupOfEarlier rows i)).length := by
  unfold duplicates_count
  rw [duplicated_eq, count_true_eq_countP, List.countP_map,
    List.countP_eq_length_filter]
  simp [Function.comp_def]

/-- The duplicate preview is the first at most ten duplicate rows, in
original order. -/
theorem dup_preview_eq (rows : List (List Cell)) :
    dup_preview rows
      = (((List.range rows.length).filter (fun i => dupOfEarlier rows i)).map
          (fun i => rows.getD i [])).take 10 := by
  unfold dup_preview
  rw [duplicated_eq, zip_range_map ([] : List Cell), List.filter_map, List.map_map]
  simp [Function.comp_def]

/-- C6: `duplicate_count` is the number of rows that exactly duplicate an
earlier row (first occurrences are not counted), the duplicate preview is
the first at most 10 such rows in original row order, and on the spec's
example "a,b\n1,2\n1,2\n" the parsed table has one duplicate whose
preview is exactly the second row. -/
theorem duplicates_count_spec (rows : List (List Cell)) :
    duplicates_count rows
      = ((List.range rows.length).filter (fun i => dupOfEarlier rows i)).length
    ∧ dup_preview rows
      = (((List.range rows.length).filter (fun i => dupOfEarlier rows i)).map
          (fun i => rows.getD i [])).take 10
    ∧ (read_csv false ("a,b\n1,2\n1,2\n".toList)).map
        (fun t => (duplicates_count t.rows, dup_preview t.rows))
      = Except.ok (1, [[Cell.val ['1'], Cell.val ['2']]]) :=
  ⟨duplicates_count_eq rows, dup_preview_eq rows, by rfl⟩
